import Mathlib

/-!
Shallow embedding of the go-vikunja/api access-control resolution code
(src/models/namespace_rights.go and src/models/list_rights.go), of the
newer list model operations ReadAll and CheckIsArchived, and of the task
update code (src/pkg/models/list_tasks_create_update.go).

Database tables are embedded as lists of row structures, and the xorm
queries as boolean scans over those lists that keep the exact join and
where conditions of the source. Store lookup helpers that are not part of
the sampled source are modelled from the spec and marked as such in their
doc comments.
-/

/-- The TeamRight enum of the source: TeamRightRead, TeamRightWrite, TeamRightAdmin. -/
inductive TeamRight where
  | read
  | write
  | admin
deriving DecidableEq, Repr

/-- A user; the rights engine only ever consults its numeric ID. -/
structure User where
  ID : Int
deriving DecidableEq, Repr

/-- The old-model Namespace: the owner_id column plus the loaded Owner user object. -/
structure Namespace where
  ID : Int
  OwnerID : Int
  Owner : User
deriving DecidableEq, Repr

/-- The old-model List row of list_rights.go: id, owner_id, namespace_id plus
the loaded Owner user object. -/
structure ListEntity where
  ID : Int
  OwnerID : Int
  NamespaceID : Int
  Owner : User
deriving DecidableEq, Repr

/-- A team_members row: the team and the user who is a member of it. -/
structure TeamMember where
  TeamID : Int
  UserID : Int
deriving DecidableEq, Repr

/-- A team_namespaces row: its own primary key id, the team, the namespace and
the granted right. -/
structure TeamNamespace where
  ID : Int
  TeamID : Int
  NamespaceID : Int
  Right : TeamRight
deriving DecidableEq, Repr

/-- A team_list row; the right column is named rights in the source query. -/
structure TeamList where
  TeamID : Int
  ListID : Int
  Rights : TeamRight
deriving DecidableEq, Repr

/-- The grant store the old-model rights queries run against. -/
structure DB where
  namespaces : List Namespace
  lists : List ListEntity
  teamMembers : List TeamMember
  teamNamespaces : List TeamNamespace
  teamLists : List TeamList
deriving Repr

/-- Embeds Namespace.checkTeamRights (namespace_rights.go lines 65-79). The
query selects from namespaces, left-joins team_namespaces on
namespaces.id = team_namespaces.namespace_id and team_members on
team_members.team_id = team_namespaces.team_id, and asks whether any row
satisfies (team_members.user_id = user AND team_namespaces.right = r) OR
(namespaces.owner_id = user). The where clause never mentions n.ID, so the
receiver namespace n is not consulted, exactly as in the source. -/
def Namespace.checkTeamRights (db : DB) (n : Namespace) (user : User) (r : TeamRight) : Bool :=
  db.namespaces.any fun ns =>
    (db.teamNamespaces.any fun tn =>
      db.teamMembers.any fun tm =>
        ns.ID == tn.NamespaceID && tm.TeamID == tn.TeamID &&
          tm.UserID == user.ID && tn.Right == r)
    || ns.OwnerID == user.ID

/-- Embeds Namespace.IsAdmin (namespace_rights.go lines 4-13): owners always
have admin rights, otherwise check team rights for TeamRightAdmin. -/
def Namespace.IsAdmin (db : DB) (n : Namespace) (user : User) : Bool :=
  if user.ID == n.Owner.ID then true
  else n.checkTeamRights db user TeamRight.admin

/-- Embeds Namespace.CanWrite (namespace_rights.go lines 16-29): owner, then
IsAdmin, then team rights for TeamRightWrite. -/
def Namespace.CanWrite (db : DB) (n : Namespace) (user : User) : Bool :=
  if user.ID == n.Owner.ID then true
  else if n.IsAdmin db user then true
  else n.checkTeamRights db user TeamRight.write

/-- Embeds Namespace.CanRead (namespace_rights.go lines 31-45): owner, then
IsAdmin, then team rights for TeamRightRead. -/
def Namespace.CanRead (db : DB) (n : Namespace) (user : User) : Bool :=
  if user.ID == n.Owner.ID then true
  else if n.IsAdmin db user then true
  else n.checkTeamRights db user TeamRight.read

/-- Modelled from the spec: GetNamespaceByID is not under src; spec section 6
gives the store contract GetNamespace(id) returning the namespace or NotFound.
The stored row is returned with its owner user object loaded. -/
def getNamespaceByID (db : DB) (id : Int) : Option Namespace :=
  (db.namespaces.find? fun ns => ns.ID == id).map fun ns =>
    { ns with Owner := { ID := ns.OwnerID } }

/-- Embeds Namespace.CanUpdate (namespace_rights.go lines 47-51): re-fetch the
namespace by its id, then evaluate IsAdmin on the fetched namespace. The fetch
error is discarded in the source; per spec section 4.2 the engine yields the
deny verdict when the namespace does not resolve. -/
def Namespace.CanUpdate (db : DB) (n : Namespace) (user : User) : Bool :=
  match getNamespaceByID db n.ID with
  | Option.some nn => nn.IsAdmin db user
  | Option.none => false

/-- Embeds Namespace.CanDelete (namespace_rights.go lines 53-57); identical
shape to CanUpdate. -/
def Namespace.CanDelete (db : DB) (n : Namespace) (user : User) : Bool :=
  match getNamespaceByID db n.ID with
  | Option.some nn => nn.IsAdmin db user
  | Option.none => false

/-- Embeds List.checkListTeamRight (list_rights.go lines 62-78). The query
keeps the join conditions of the source verbatim: team_namespaces is joined on
tn.namespace_id = tn.id, the row's own primary key, and never on the list's
namespace; team_list is joined on l.id = tl.list_id; the where clause is
((tm.user_id = u AND tn.right = r) OR (tm2.user_id = u AND tl.rights = r))
AND l.id = the receiver's id. -/
def ListEntity.checkListTeamRight (db : DB) (l : ListEntity) (user : User) (r : TeamRight) : Bool :=
  db.lists.any fun row =>
    ((db.teamNamespaces.any fun tn =>
        db.teamMembers.any fun tm =>
          tn.NamespaceID == tn.ID && tm.TeamID == tn.TeamID &&
            tm.UserID == user.ID && tn.Right == r)
      || (db.teamLists.any fun tl =>
        db.teamMembers.any fun tm2 =>
          row.ID == tl.ListID && tm2.TeamID == tl.TeamID &&
            tm2.UserID == user.ID && tl.Rights == r))
    && row.ID == l.ID

/-- Embeds List.IsAdmin (list_rights.go lines 4-11): owners are always admins,
otherwise check list team rights for TeamRightAdmin. -/
def ListEntity.IsAdmin (db : DB) (l : ListEntity) (user : User) : Bool :=
  if l.Owner.ID == user.ID then true
  else l.checkListTeamRight db user TeamRight.admin

/-- Embeds List.CanWrite (list_rights.go lines 14-26). -/
def ListEntity.CanWrite (db : DB) (l : ListEntity) (user : User) : Bool :=
  if l.Owner.ID == user.ID then true
  else if l.IsAdmin db user then true
  else l.checkListTeamRight db user TeamRight.write

/-- Embeds List.CanRead (list_rights.go lines 29-41). -/
def ListEntity.CanRead (db : DB) (l : ListEntity) (user : User) : Bool :=
  if l.Owner.ID == user.ID then true
  else if l.IsAdmin db user then true
  else l.checkListTeamRight db user TeamRight.read

/-- Modelled from the spec: GetListByID is not under src; spec section 6 gives
the store contract GetList(id) returning the list or NotFound. The stored row
is returned with its owner user object loaded. -/
def getListByID (db : DB) (id : Int) : Option ListEntity :=
  (db.lists.find? fun row => row.ID == id).map fun row =>
    { row with Owner := { ID := row.OwnerID } }

/-- Embeds List.CanDelete (list_rights.go lines 43-47): re-fetch the list by
its id, then evaluate IsAdmin on the fetched list; the fetch error is
discarded in the source, and per spec section 4.2 an unresolved entity yields
the deny verdict. -/
def ListEntity.CanDelete (db : DB) (l : ListEntity) (doer : User) : Bool :=
  match getListByID db l.ID with
  | Option.some list => list.IsAdmin db doer
  | Option.none => false

/-- Embeds List.CanUpdate (list_rights.go lines 49-53): re-fetch the list by
its id, then evaluate CanWrite on the fetched list. -/
def ListEntity.CanUpdate (db : DB) (l : ListEntity) (doer : User) : Bool :=
  match getListByID db l.ID with
  | Option.some list => list.CanWrite db doer
  | Option.none => false

/-- Embeds List.CanCreate (list_rights.go lines 56-60): fetch the namespace of
the list, then evaluate CanWrite on it. -/
def ListEntity.CanCreate (db : DB) (l : ListEntity) (doer : User) : Bool :=
  match getNamespaceByID db l.NamespaceID with
  | Option.some n => n.CanWrite db doer
  | Option.none => false

/-- The spec's Right lattice None < Read < Write < Admin (spec section 3);
None is the absence of a grant. -/
inductive SpecRight where
  | none
  | read
  | write
  | admin
deriving DecidableEq, Repr

/-- A users_list row: a direct user share of a list. -/
structure UserListRow where
  UserID : Int
  ListID : Int
deriving DecidableEq, Repr

/-- A users_namespace row: a direct user share of a namespace. -/
structure UserNamespaceRow where
  UserID : Int
  NamespaceID : Int
deriving DecidableEq, Repr

/-- The newer-model list row: the columns consulted by ReadAll,
getRawListsForUser and CheckIsArchived. -/
structure ListRow where
  ID : Int
  Title : String
  OwnerID : Int
  NamespaceID : Int
  IsArchived : Bool
deriving DecidableEq, Repr

/-- The newer-model namespace row. -/
structure NamespaceRow where
  ID : Int
  OwnerID : Int
  IsArchived : Bool
deriving DecidableEq, Repr

/-- A link share: a capability bound at creation to exactly one list and one
right (the LinkSharing model of the source). -/
structure LinkSharing where
  ID : Int
  ListID : Int
  Right : SpecRight
deriving DecidableEq, Repr

/-- The store the newer-model queries run against. -/
structure Store where
  users : List User
  lists : List ListRow
  namespaces : List NamespaceRow
  teamMembers : List TeamMember
  teamNamespaces : List TeamNamespace
  teamLists : List TeamList
  userLists : List UserListRow
  userNamespaces : List UserNamespaceRow
deriving Repr

/-- The errors the embedded ReadAll path can produce. -/
inductive ReadAllErr where
  | listDoesNotExist (id : Int)
  | userDoesNotExist (id : Int)
deriving DecidableEq, Repr

/-- Embeds GetListSimpleByID (list_rights.go newer part, lines 326-344): ids
below 1 and missing rows both give ErrListDoesNotExist. -/
def GetListSimpleByID (st : Store) (listID : Int) : Except ReadAllErr ListRow :=
  if listID < 1 then Except.error (ReadAllErr.listDoesNotExist listID)
  else
    match st.lists.find? fun row => row.ID == listID with
    | Option.some row => Except.ok row
    | Option.none => Except.error (ReadAllErr.listDoesNotExist listID)

/-- Embeds addListDetails (list_rights.go newer part, lines 479-533)
restricted to the owner decoration: each list is paired with its owner loaded
from the users table. The background-information decoration of the source
changes no list membership and is outside the claims, so it is not modelled. -/
def addListDetails (st : Store) (ls : List ListRow) : List (ListRow × Option User) :=
  ls.map fun l => (l, st.users.find? fun u => u.ID == l.OwnerID)

/-- Modelled from the spec: the pagination helper getLimitFromPageIndex is not
under src; page values below 1 disable the limit, otherwise the limit is
perPage starting at (page - 1) * perPage. -/
def getLimitFromPageIndex (page perPage : Int) : Int × Int :=
  if page < 1 then (0, 0) else (perPage, (page - 1) * perPage)

/-- SQL LIKE with wildcards on both sides: substring containment. -/
def likeContains (hay needle : String) : Bool :=
  needle == "" || (hay.splitOn needle).length > 1

/-- Embeds the search-string handling of getRawListsForUser: split on commas
and keep the parts that parse as integers. -/
def parseSearchIDs (search : String) : List Int :=
  (search.splitOn ",").filterMap fun v => v.toInt?

/-- The listOptions struct of the source, with the user kept as its id. -/
structure ListOptions where
  search : String
  userID : Int
  page : Int
  perPage : Int
  isArchived : Bool
deriving Repr

/-- Embeds getRawListsForUser (list_rights.go newer part, lines 389-476): the
requesting user must exist; a list row is kept when its namespace exists
(inner join) and one of the five membership disjuncts holds (team-namespace
member, team-list member, direct users_list share, direct users_namespace
share, owner), subject to the search filter and, unless isArchived is set, to
both archived flags being false; the page window is applied last. Returns the
page, its length, and the total number of matches. -/
def getRawListsForUser (st : Store) (opts : ListOptions) :
    Except ReadAllErr (List ListRow × Int × Int) :=
  match st.users.find? fun u => u.ID == opts.userID with
  | Option.none => Except.error (ReadAllErr.userDoesNotExist opts.userID)
  | Option.some fullUser =>
    let ids := parseSearchIDs opts.search
    let filterCond : ListRow → Bool := fun l =>
      if ids.length > 0 then ids.any fun i => i == l.ID
      else likeContains l.Title opts.search
    let found := st.lists.filter fun l =>
      (st.namespaces.any fun n =>
        n.ID == l.NamespaceID &&
          ((st.teamNamespaces.any fun tn =>
              tn.NamespaceID == n.ID && st.teamMembers.any fun tm =>
                tm.TeamID == tn.TeamID && tm.UserID == fullUser.ID)
            || (st.teamLists.any fun tl =>
              tl.ListID == l.ID && st.teamMembers.any fun tm2 =>
                tm2.TeamID == tl.TeamID && tm2.UserID == fullUser.ID)
            || (st.userLists.any fun ul =>
              ul.ListID == l.ID && ul.UserID == fullUser.ID)
            || (st.userNamespaces.any fun un =>
              un.NamespaceID == l.NamespaceID && un.UserID == fullUser.ID)
            || l.OwnerID == fullUser.ID)
          && (opts.isArchived || (!l.IsArchived && !n.IsArchived)))
      && filterCond l
    let lp := getLimitFromPageIndex opts.page opts.perPage
    let page := if lp.1 > 0 then (found.drop lp.2.toNat).take lp.1.toNat else found
    Except.ok (page, Int.ofNat page.length, Int.ofNat found.length)

/-- The acting principal of ReadAll: a user or a link share. -/
inductive Auth where
  | user (u : User)
  | share (ls : LinkSharing)
deriving Repr

/-- Embeds List.ReadAll (list_rights.go newer part, lines 229-258): a
link-share principal short-circuits to GetListSimpleByID on the share's
stored ListID and that single list is returned; a user principal goes through
getRawListsForUser with isArchived taken from the receiver list. -/
def ListRow.ReadAll (st : Store) (l : ListRow) (a : Auth) (search : String)
    (page perPage : Int) : Except ReadAllErr (List (ListRow × Option User) × Int × Int) :=
  match a with
  | Auth.share sa =>
    match GetListSimpleByID st sa.ListID with
    | Except.error e => Except.error e
    | Except.ok list => Except.ok (addListDetails st [list], 0, 0)
  | Auth.user u =>
    match getRawListsForUser st { search := search, userID := u.ID, page := page,
                                  perPage := perPage, isArchived := l.IsArchived } with
    | Except.error e => Except.error e
    | Except.ok x => Except.ok (addListDetails st x.1, x.2.1, x.2.2)

/-- Modelled from the spec: the link-share right-check methods are not under
src; spec section 4.3 gives the EffectiveRight of a LinkSharing principal as
its stored Right on its stored list and None on every other list. -/
def linkShareEffectiveRight (sa : LinkSharing) (l : ListRow) : SpecRight :=
  if l.ID == sa.ListID then sa.Right else SpecRight.none

/-- The typed archived errors of the source: ErrListIsArchived and
ErrNamespaceIsArchived. -/
inductive ArchErr where
  | listIsArchived (listID : Int)
  | namespaceIsArchived (namespaceID : Int)
deriving DecidableEq, Repr

/-- Modelled from the spec: Namespace.CheckIsArchived is not under src; per
spec section 4.4 the pre-creation path consults only the parent namespace's
archived bit, so this check reports ErrNamespaceIsArchived exactly when the
namespaces table holds an archived row with the given id. -/
def namespaceCheckIsArchivedByID (st : Store) (id : Int) : Option ArchErr :=
  if st.namespaces.any fun n => n.ID == id && n.IsArchived then
    Option.some (ArchErr.namespaceIsArchived id)
  else Option.none

/-- Embeds List.CheckIsArchived (list_rights.go newer part, lines 541-565):
for a not-yet-created list (ID 0) only the parent namespace's archived bit is
checked; otherwise the list is joined to its namespace and, when the join row
matches (list archived or namespace archived), the list-archived error is
reported first and the namespace-archived error second. -/
def ListRow.CheckIsArchived (st : Store) (l : ListRow) : Option ArchErr :=
  if l.ID == 0 then
    namespaceCheckIsArchivedByID st l.NamespaceID
  else
    let hit := st.lists.find? fun row =>
      row.ID == l.ID &&
        (row.IsArchived ||
          ((st.namespaces.find? fun n => n.ID == row.NamespaceID).elim false fun n =>
            n.IsArchived))
    match hit with
    | Option.none => Option.none
    | Option.some row =>
      let ns := (st.namespaces.find? fun n => n.ID == row.NamespaceID).getD
        { ID := 0, OwnerID := 0, IsArchived := false }
      if row.ID != 0 && row.IsArchived then Option.some (ArchErr.listIsArchived l.ID)
      else if ns.ID != 0 && ns.IsArchived then Option.some (ArchErr.namespaceIsArchived ns.ID)
      else Option.none

/-- The ListTask columns touched by the embedded Update
(list_tasks_create_update.go). -/
structure ListTask where
  ID : Int
  Text : String
  Description : String
  Done : Bool
  DoneAtUnix : Int
  DueDateUnix : Int
  RemindersUnix : List Int
  RepeatAfter : Int
  ParentTaskID : Int
  Priority : Int
  StartDateUnix : Int
  EndDateUnix : Int
  HexColor : String
  ListID : Int
deriving DecidableEq, Repr

/-- Embeds updateDone (list_tasks_create_update.go lines 215-234): when an
undone repeating task is marked done, the old task's due date and every
reminder are shifted by RepeatAfter and the new task is set back to undone;
the done-at timestamp is set to the current time when marking done and
cleared when unmarking. Returns the pair (oldTask, newTask) after the
in-place mutations of the source. -/
def updateDone (oldTask newTask : ListTask) (now : Int) : ListTask × ListTask :=
  let o1 :=
    if !oldTask.Done && newTask.Done && oldTask.RepeatAfter > 0 then
      { oldTask with
        DueDateUnix := oldTask.DueDateUnix + oldTask.RepeatAfter,
        RemindersUnix := oldTask.RemindersUnix.map fun r => r + oldTask.RepeatAfter }
    else oldTask
  let n1 :=
    if !oldTask.Done && newTask.Done && oldTask.RepeatAfter > 0 then
      { newTask with Done := false }
    else newTask
  let o2 := if !o1.Done && n1.Done then { o1 with DoneAtUnix := now } else o1
  let o3 := if o2.Done && !n1.Done then { o2 with DoneAtUnix := 0 } else o2
  (o3, n1)

/-- Embeds the mergo.Merge(ot, t, WithOverride) call of Update (line 141):
every field of t that differs from its zero value overrides the corresponding
field of ot; zero-valued fields of t are ignored by the merge. -/
def mergeOverride (ot t : ListTask) : ListTask where
  ID := if t.ID != 0 then t.ID else ot.ID
  Text := if t.Text != "" then t.Text else ot.Text
  Description := if t.Description != "" then t.Description else ot.Description
  Done := if t.Done then t.Done else ot.Done
  DoneAtUnix := if t.DoneAtUnix != 0 then t.DoneAtUnix else ot.DoneAtUnix
  DueDateUnix := if t.DueDateUnix != 0 then t.DueDateUnix else ot.DueDateUnix
  RemindersUnix := if t.RemindersUnix != [] then t.RemindersUnix else ot.RemindersUnix
  RepeatAfter := if t.RepeatAfter != 0 then t.RepeatAfter else ot.RepeatAfter
  ParentTaskID := if t.ParentTaskID != 0 then t.ParentTaskID else ot.ParentTaskID
  Priority := if t.Priority != 0 then t.Priority else ot.Priority
  StartDateUnix := if t.StartDateUnix != 0 then t.StartDateUnix else ot.StartDateUnix
  EndDateUnix := if t.EndDateUnix != 0 then t.EndDateUnix else ot.EndDateUnix
  HexColor := if t.HexColor != "" then t.HexColor else ot.HexColor
  ListID := if t.ListID != 0 then t.ListID else ot.ListID

/-- Embeds the explicit zero-value resets of Update (lines 149-188): each
listed field of the incoming task that is at its zero value forces the merged
field back to that zero value. -/
def applyZeroResets (ot t : ListTask) : ListTask :=
  { ot with
    Done := if !t.Done then false else ot.Done,
    Priority := if t.Priority == 0 then 0 else ot.Priority,
    Description := if t.Description == "" then "" else ot.Description,
    DueDateUnix := if t.DueDateUnix == 0 then 0 else ot.DueDateUnix,
    RemindersUnix := if t.RemindersUnix.length == 0 then [] else ot.RemindersUnix,
    RepeatAfter := if t.RepeatAfter == 0 then 0 else ot.RepeatAfter,
    ParentTaskID := if t.ParentTaskID == 0 then 0 else ot.ParentTaskID,
    StartDateUnix := if t.StartDateUnix == 0 then 0 else ot.StartDateUnix,
    EndDateUnix := if t.EndDateUnix == 0 then 0 else ot.EndDateUnix,
    HexColor := if t.HexColor == "" then "" else ot.HexColor }

/-- Embeds the column list of the final database update (lines 190-203): the
stored row keeps its identity columns and takes exactly the listed columns
from the merged task. -/
def applyUpdateCols (old upd : ListTask) : ListTask :=
  { old with
    Text := upd.Text, Description := upd.Description, Done := upd.Done,
    DueDateUnix := upd.DueDateUnix, RemindersUnix := upd.RemindersUnix,
    RepeatAfter := upd.RepeatAfter, ParentTaskID := upd.ParentTaskID,
    Priority := upd.Priority, StartDateUnix := upd.StartDateUnix,
    EndDateUnix := upd.EndDateUnix, HexColor := upd.HexColor,
    DoneAtUnix := upd.DoneAtUnix }

/-- Modelled from the spec: GetTaskByID is not under src; it resolves the
stored task by id or fails with a not-found error. -/
def getTaskByID (tasks : List ListTask) (id : Int) : Option ListTask :=
  tasks.find? fun task => task.ID == id

/-- The errors the embedded task Update can produce. -/
inductive UpdateErr where
  | taskDoesNotExist (id : Int)
  | parentTaskCannotBeTheSame (id : Int)
deriving DecidableEq, Repr

/-- Embeds ListTask.Update (list_tasks_create_update.go lines 101-211): fetch
the stored task, reject a task that is its own parent, run updateDone, merge
the incoming task over the stored one with mergo override semantics, apply
the zero-value resets, and write the listed columns back onto the stored row,
which is the value returned. -/
def ListTask.Update (tasks : List ListTask) (t : ListTask) (now : Int) :
    Except UpdateErr ListTask :=
  match getTaskByID tasks t.ID with
  | Option.none => Except.error (UpdateErr.taskDoesNotExist t.ID)
  | Option.some ot0 =>
    if t.ID == t.ParentTaskID then
      Except.error (UpdateErr.parentTaskCannotBeTheSame t.ID)
    else
      Except.ok (applyUpdateCols ot0
        (applyZeroResets
          (mergeOverride (updateDone ot0 t now).1 (updateDone ot0 t now).2)
          (updateDone ot0 t now).2))

/-- User 1. -/
def userOne : User := { ID := 1 }

/-- User 2. -/
def userTwo : User := { ID := 2 }

/-- User 4, who owns nothing and is in no team in the stores below. -/
def userFour : User := { ID := 4 }

/-- Namespace 10, owned by user 1. -/
def nsTen : Namespace := { ID := 10, OwnerID := 1, Owner := { ID := 1 } }

/-- Namespace 1, owned by user 1. -/
def nsOne : Namespace := { ID := 1, OwnerID := 1, Owner := { ID := 1 } }

/-- A namespace object carrying an id (300) that resolves to no stored row. -/
def nsMissing : Namespace := { ID := 300, OwnerID := 0, Owner := { ID := 0 } }

/-- List 7, owned by user 1, inside namespace 10. -/
def listSeven : ListEntity := { ID := 7, OwnerID := 1, NamespaceID := 10, Owner := { ID := 1 } }

/-- A forged list object with the same id 7 but caller-supplied owner and
namespace fields naming user 4. -/
def listSevenForged : ListEntity := { ID := 7, OwnerID := 4, NamespaceID := 99, Owner := { ID := 4 } }

/-- A list object carrying an id (300) that resolves to no stored row. -/
def listMissing : ListEntity := { ID := 300, OwnerID := 0, NamespaceID := 0, Owner := { ID := 0 } }

/-- Two namespaces owned by two different users; no teams, no grants, no lists. -/
def dbTwoOwners : DB :=
  { namespaces := [{ ID := 10, OwnerID := 1, Owner := { ID := 1 } },
                   { ID := 20, OwnerID := 2, Owner := { ID := 2 } }],
    lists := [], teamMembers := [], teamNamespaces := [], teamLists := [] }

/-- Namespace 1 owned by user 1; team 4 has exactly one member, user 2, and
holds exactly one grant: TeamRightWrite on namespace 1. -/
def dbWriteOnly : DB :=
  { namespaces := [{ ID := 1, OwnerID := 1, Owner := { ID := 1 } }],
    lists := [],
    teamMembers := [{ TeamID := 4, UserID := 2 }],
    teamNamespaces := [{ ID := 9, TeamID := 4, NamespaceID := 1, Right := TeamRight.write }],
    teamLists := [] }

/-- Namespace 10 owned by user 1, containing list 7; team 3 has member user 2
and holds TeamRightAdmin on namespace 10 through the team_namespaces row with
primary key 5. -/
def dbPropagation : DB :=
  { namespaces := [{ ID := 10, OwnerID := 1, Owner := { ID := 1 } }],
    lists := [{ ID := 7, OwnerID := 1, NamespaceID := 10, Owner := { ID := 1 } }],
    teamMembers := [{ TeamID := 3, UserID := 2 }],
    teamNamespaces := [{ ID := 5, TeamID := 3, NamespaceID := 10, Right := TeamRight.admin }],
    teamLists := [] }

/-- Namespace 10 owned by user 1 containing list 7; no teams and no grants. -/
def dbC6 : DB :=
  { namespaces := [{ ID := 10, OwnerID := 1, Owner := { ID := 1 } }],
    lists := [{ ID := 7, OwnerID := 1, NamespaceID := 10, Owner := { ID := 1 } }],
    teamMembers := [], teamNamespaces := [], teamLists := [] }

/-- The list row the link share below is bound to. -/
def listRowThree : ListRow :=
  { ID := 3, Title := "shared", OwnerID := 1, NamespaceID := 10, IsArchived := false }

/-- Another list row, not bound to the link share. -/
def listRowOther : ListRow :=
  { ID := 4, Title := "other", OwnerID := 1, NamespaceID := 10, IsArchived := false }

/-- The receiver list object ReadAll is invoked on. -/
def listRowReceiver : ListRow :=
  { ID := 0, Title := "", OwnerID := 0, NamespaceID := 0, IsArchived := false }

/-- A store holding lists 3 and 4 under namespace 10, with user 1 present. -/
def storeShare : Store :=
  { users := [{ ID := 1 }],
    lists := [listRowThree, listRowOther],
    namespaces := [{ ID := 10, OwnerID := 1, IsArchived := false }],
    teamMembers := [], teamNamespaces := [], teamLists := [],
    userLists := [], userNamespaces := [] }

/-- A link share bound to list 3 with the read right. -/
def shareThree : LinkSharing := { ID := 50, ListID := 3, Right := SpecRight.read }

/-- Unarchived list 3 under unarchived namespace 11. -/
def archListThree : ListRow :=
  { ID := 3, Title := "plain", OwnerID := 1, NamespaceID := 11, IsArchived := false }

/-- Archived list 4 under unarchived namespace 11. -/
def archListFour : ListRow :=
  { ID := 4, Title := "gone", OwnerID := 1, NamespaceID := 11, IsArchived := true }

/-- Unarchived list 5 under archived namespace 12. -/
def archListFive : ListRow :=
  { ID := 5, Title := "frozen", OwnerID := 1, NamespaceID := 12, IsArchived := false }

/-- A store with one archived list and one archived namespace. -/
def storeArch : Store :=
  { users := [],
    lists := [archListThree, archListFour, archListFive],
    namespaces := [{ ID := 11, OwnerID := 1, IsArchived := false },
                   { ID := 12, OwnerID := 1, IsArchived := true }],
    teamMembers := [], teamNamespaces := [], teamLists := [],
    userLists := [], userNamespaces := [] }

/-- A stored task with every updatable field at a value other than its zero value. -/
def oldC9 : ListTask :=
  { ID := 1, Text := "a", Description := "d", Done := true, DoneAtUnix := 50,
    DueDateUnix := 500, RemindersUnix := [600], RepeatAfter := 100,
    ParentTaskID := 2, Priority := 3, StartDateUnix := 7, EndDateUnix := 8,
    HexColor := "fff", ListID := 4 }

/-- An incoming update for task 1 with every field at its zero value. -/
def tC9 : ListTask :=
  { ID := 1, Text := "", Description := "", Done := false, DoneAtUnix := 0,
    DueDateUnix := 0, RemindersUnix := [], RepeatAfter := 0,
    ParentTaskID := 0, Priority := 0, StartDateUnix := 0, EndDateUnix := 0,
    HexColor := "", ListID := 0 }

/-- The row the embedded Update stores for oldC9 and tC9. -/
def storedC9 : ListTask :=
  { ID := 1, Text := "a", Description := "", Done := false, DoneAtUnix := 0,
    DueDateUnix := 0, RemindersUnix := [], RepeatAfter := 0,
    ParentTaskID := 0, Priority := 0, StartDateUnix := 0, EndDateUnix := 0,
    HexColor := "", ListID := 4 }

/-- A stored undone repeating task: RepeatAfter 100, due at 500, one reminder at 600. -/
def oldC10 : ListTask :=
  { ID := 1, Text := "a", Description := "", Done := false, DoneAtUnix := 0,
    DueDateUnix := 500, RemindersUnix := [600], RepeatAfter := 100,
    ParentTaskID := 0, Priority := 0, StartDateUnix := 0, EndDateUnix := 0,
    HexColor := "", ListID := 4 }

/-- The same task sent back by the client with Done flipped to true and every
other field echoed unchanged. -/
def tC10 : ListTask :=
  { ID := 1, Text := "a", Description := "", Done := true, DoneAtUnix := 0,
    DueDateUnix := 500, RemindersUnix := [600], RepeatAfter := 100,
    ParentTaskID := 0, Priority := 0, StartDateUnix := 0, EndDateUnix := 0,
    HexColor := "", ListID := 4 }

/-- The row the embedded Update stores for oldC10 and tC10: the due date and
reminder increments computed by updateDone are overwritten by the merge with
the caller-supplied values. -/
def storedC10 : ListTask :=
  { ID := 1, Text := "a", Description := "", Done := false, DoneAtUnix := 0,
    DueDateUnix := 500, RemindersUnix := [600], RepeatAfter := 100,
    ParentTaskID := 0, Priority := 0, StartDateUnix := 0, EndDateUnix := 0,
    HexColor := "", ListID := 4 }

/-- C1: the claim fails on the code and the failing behaviour contradicts the
source's own comments. User 2 owns only namespace 20 and holds no team grant
at all, yet IsAdmin, CanWrite and CanRead on namespace 10 all evaluate to
true: checkTeamRights never filters on the receiver namespace id and its
owner_id or-clause matches any namespace owned by the user. -/
theorem c1_rights_leak_across_namespaces :
    Namespace.IsAdmin dbTwoOwners nsTen userTwo = true
    ∧ Namespace.CanWrite dbTwoOwners nsTen userTwo = true
    ∧ Namespace.CanRead dbTwoOwners nsTen userTwo = true
    ∧ nsTen.Owner.ID ≠ userTwo.ID
    ∧ nsTen.OwnerID ≠ userTwo.ID
    ∧ dbTwoOwners.teamNamespaces = []
    ∧ dbTwoOwners.teamMembers = [] := by
  decide

/-- C2 counterexample: in dbWriteOnly user 2's only grant is membership in
team 4, which holds exactly TeamRightWrite on namespace 1; the claim expects
CanRead to be true, but the code returns false, because CanRead only accepts
an exact TeamRightRead grant or admin status. -/
theorem c2_write_grant_counterexample :
    Namespace.CanWrite dbWriteOnly nsOne userTwo = true
    ∧ Namespace.IsAdmin dbWriteOnly nsOne userTwo = false
    ∧ Namespace.CanRead dbWriteOnly nsOne userTwo = false := by
  decide

/-- C2 amended: for a user who owns no namespace and whose only team grant is
TeamRightWrite, CanWrite is true and IsAdmin is false as the claim states, but
CanRead is false: a held Write right does not satisfy the Read requirement in
this code, which matches rights by exact equality plus an admin escalation. -/
theorem c2_amended_write_does_not_imply_read (db : DB) (nsp : Namespace) (b : User)
    (hown : ∀ ns2 ∈ db.namespaces, ns2.OwnerID ≠ b.ID)
    (hnotowner : b.ID ≠ nsp.Owner.ID)
    (hgrant : ∃ ns2 ∈ db.namespaces, ∃ tn ∈ db.teamNamespaces, ∃ tm ∈ db.teamMembers,
        ns2.ID = tn.NamespaceID ∧ tn.NamespaceID = nsp.ID ∧ tm.TeamID = tn.TeamID ∧
        tm.UserID = b.ID ∧ tn.Right = TeamRight.write)
    (honly : ∀ tn2 ∈ db.teamNamespaces, tn2.Right = TeamRight.write) :
    nsp.CanWrite db b = true ∧ nsp.IsAdmin db b = false ∧ nsp.CanRead db b = false := by
  have howner : (b.ID == nsp.Owner.ID) = false := by
    simp [hnotowner]
  have hno : ∀ r : TeamRight, r ≠ TeamRight.write → nsp.checkTeamRights db b r = false := by
    intro r hr
    apply Bool.eq_false_iff.mpr
    intro hcontra
    simp only [Namespace.checkTeamRights, List.any_eq_true, Bool.or_eq_true,
      Bool.and_eq_true, beq_iff_eq] at hcontra
    obtain ⟨ns2, hns2, hcase⟩ := hcontra
    rcases hcase with ⟨tn, htn, tm, htm, hc⟩ | howned
    · exact hr (by rw [← hc.2]; exact honly tn htn)
    · exact hown ns2 hns2 howned
  have hadmin : nsp.IsAdmin db b = false := by
    simp only [Namespace.IsAdmin, howner, Bool.false_eq_true, if_false]
    exact hno TeamRight.admin (by simp)
  have hwrite : nsp.checkTeamRights db b TeamRight.write = true := by
    obtain ⟨ns2, hns2, tn, htn, tm, htm, h1, h2, h3, h4, h5⟩ := hgrant
    simp only [Namespace.checkTeamRights, List.any_eq_true, Bool.or_eq_true,
      Bool.and_eq_true, beq_iff_eq]
    exact ⟨ns2, hns2, Or.inl ⟨tn, htn, tm, htm, ⟨⟨h1, h3⟩, h4⟩, h5⟩⟩
  refine ⟨?_, hadmin, ?_⟩
  · simp [Namespace.CanWrite, howner, hadmin, hwrite]
  · simp [Namespace.CanRead, howner, hadmin, hno TeamRight.read (by simp)]

/-- C2 amended witness: the amended statement applied to the concrete
dbWriteOnly scenario. -/
theorem c2_amended_witness :
    Namespace.CanWrite dbWriteOnly nsOne userTwo = true
    ∧ Namespace.IsAdmin dbWriteOnly nsOne userTwo = false
    ∧ Namespace.CanRead dbWriteOnly nsOne userTwo = false := by
  exact c2_amended_write_does_not_imply_read dbWriteOnly nsOne userTwo
    (by decide) (by decide) (by decide) (by decide)

/-- C3: the claim fails on the code. User 2 is a team admin of namespace 10
(Namespace.IsAdmin/CanWrite/CanRead all true), list 7 lives in namespace 10,
yet every list predicate is false for user 2: checkListTeamRight joins
team_namespaces on tn.namespace_id = tn.id, the row's own primary key,
instead of the list's namespace, so namespace rights never reach the lists. -/
theorem c3_namespace_rights_do_not_reach_lists :
    Namespace.IsAdmin dbPropagation nsTen userTwo = true
    ∧ Namespace.CanWrite dbPropagation nsTen userTwo = true
    ∧ Namespace.CanRead dbPropagation nsTen userTwo = true
    ∧ listSeven.NamespaceID = nsTen.ID
    ∧ listSeven ∈ dbPropagation.lists
    ∧ ListEntity.IsAdmin dbPropagation listSeven userTwo = false
    ∧ ListEntity.CanWrite dbPropagation listSeven userTwo = false
    ∧ ListEntity.CanRead dbPropagation listSeven userTwo = false := by
  decide

/-- C6 counterexample: in dbC6 user 4 holds no right at all; CanUpdate and
CanDelete on the nonexistent namespace 300 and list 300 return exactly the
same boolean as on the existing namespace 10 and list 7 where user 4 merely
lacks the right, so no distinct not-found condition is reported. -/
theorem c6_missing_vs_denied_identical :
    getNamespaceByID dbC6 nsMissing.ID = Option.none
    ∧ (getNamespaceByID dbC6 nsTen.ID).isSome = true
    ∧ getListByID dbC6 listMissing.ID = Option.none
    ∧ (getListByID dbC6 listSeven.ID).isSome = true
    ∧ Namespace.IsAdmin dbC6 nsTen userFour = false
    ∧ Namespace.CanUpdate dbC6 nsMissing userFour = Namespace.CanUpdate dbC6 nsTen userFour
    ∧ Namespace.CanDelete dbC6 nsMissing userFour = Namespace.CanDelete dbC6 nsTen userFour
    ∧ ListEntity.CanUpdate dbC6 listMissing userFour = ListEntity.CanUpdate dbC6 listSeven userFour
    ∧ ListEntity.CanDelete dbC6 listMissing userFour = ListEntity.CanDelete dbC6 listSeven userFour := by
  decide

/-- C6 amended: on an id that resolves to no stored entity, CanUpdate and
CanDelete return the bare boolean false, the same verdict as an
insufficient-right denial; the not-found lookup error is discarded by the
source, so these predicates surface no distinct entity-not-found condition. -/
theorem c6_amended_missing_entity_plain_false (db : DB) (u : User) (nsp : Namespace)
    (l : ListEntity)
    (hn : getNamespaceByID db nsp.ID = Option.none)
    (hl : getListByID db l.ID = Option.none) :
    nsp.CanUpdate db u = false ∧ nsp.CanDelete db u = false
    ∧ l.CanUpdate db u = false ∧ l.CanDelete db u = false := by
  unfold Namespace.CanUpdate Namespace.CanDelete ListEntity.CanUpdate ListEntity.CanDelete
  rw [hn, hl]
  exact ⟨rfl, rfl, rfl, rfl⟩

/-- C6 amended witness: the amended statement at the concrete ids 300. -/
theorem c6_amended_witness :
    Namespace.CanUpdate dbC6 nsMissing userFour = false
    ∧ Namespace.CanDelete dbC6 nsMissing userFour = false
    ∧ ListEntity.CanUpdate dbC6 listMissing userFour = false
    ∧ ListEntity.CanDelete dbC6 listMissing userFour = false := by
  exact c6_amended_missing_entity_plain_false dbC6 userFour nsMissing listMissing
    (by decide) (by decide)

/-- C7: an owner always has IsAdmin, CanWrite and CanRead on the owned
namespace and on the owned list, whatever the rest of the store contains:
every predicate short-circuits on the owner comparison first. -/
theorem c7_owner_has_full_rights (db : DB) (u : User) :
    (∀ nsp : Namespace, u.ID = nsp.Owner.ID →
      nsp.IsAdmin db u = true ∧ nsp.CanWrite db u = true ∧ nsp.CanRead db u = true)
    ∧ (∀ l : ListEntity, l.Owner.ID = u.ID →
      l.IsAdmin db u = true ∧ l.CanWrite db u = true ∧ l.CanRead db u = true) := by
  constructor
  · intro nsp h
    refine ⟨?_, ?_, ?_⟩ <;> simp [Namespace.IsAdmin, Namespace.CanWrite, Namespace.CanRead, h]
  · intro l h
    refine ⟨?_, ?_, ?_⟩ <;> simp [ListEntity.IsAdmin, ListEntity.CanWrite, ListEntity.CanRead, h]

/-- C7 witness: the owner of namespace 10 and list 7 in dbC6. -/
theorem c7_owner_witness :
    Namespace.IsAdmin dbC6 nsTen userOne = true
    ∧ ListEntity.IsAdmin dbC6 listSeven userOne = true := by
  exact ⟨((c7_owner_has_full_rights dbC6 userOne).1 nsTen rfl).1,
         ((c7_owner_has_full_rights dbC6 userOne).2 listSeven rfl).1⟩

/-- C8: CanUpdate and CanDelete re-fetch the list by its id, so two list
objects with the same id but arbitrarily different caller-supplied OwnerID,
Owner and NamespaceID fields always receive the identical verdict. -/
theorem c8_refetch_ignores_caller_fields (db : DB) (doer : User) (l1 l2 : ListEntity)
    (h : l1.ID = l2.ID) :
    l1.CanUpdate db doer = l2.CanUpdate db doer
    ∧ l1.CanDelete db doer = l2.CanDelete db doer := by
  unfold ListEntity.CanUpdate ListEntity.CanDelete
  rw [h]
  exact ⟨rfl, rfl⟩

/-- C8 witness: a forged list object claiming user 4 as owner of list 7 gets
the same (negative) verdict as the honest object. -/
theorem c8_forged_fields_witness :
    ListEntity.CanUpdate dbC6 listSevenForged userFour
      = ListEntity.CanUpdate dbC6 listSeven userFour
    ∧ ListEntity.CanDelete dbC6 listSevenForged userFour
      = ListEntity.CanDelete dbC6 listSeven userFour
    ∧ ListEntity.CanUpdate dbC6 listSevenForged userFour = false := by
  refine ⟨(c8_refetch_ignores_caller_fields dbC6 userFour listSevenForged listSeven rfl).1,
          (c8_refetch_ignores_caller_fields dbC6 userFour listSevenForged listSeven rfl).2, ?_⟩
  decide

/-- C10: the claim fails on the code and the behaviour contradicts
updateDone's own comment. Marking the undone repeating task oldC10 as done
stores it still undone with DoneAtUnix unchanged, but the due date stays at
the caller-echoed 500 instead of 500 + 100 and the reminder stays at 600
instead of 700: the mergo override and the zero-value resets replace the
values updateDone computed on the old task with the caller-supplied ones. -/
theorem c10_repeat_rollover_clobbered :
    ListTask.Update [oldC10] tC10 999 = Except.ok storedC10
    ∧ storedC10.Done = false
    ∧ storedC10.DoneAtUnix = oldC10.DoneAtUnix
    ∧ storedC10.DueDateUnix = 500
    ∧ oldC10.DueDateUnix + oldC10.RepeatAfter = 600
    ∧ storedC10.RemindersUnix = [600]
    ∧ oldC10.RemindersUnix.map (fun r => r + oldC10.RepeatAfter) = [700] := by
  exact ⟨rfl, by decide⟩

/-- C4: with a link-share principal, ReadAll short-circuits to the single
stored list the share is bound to; the result depends only on the lists and
users tables and never on any grant table; and the spec-modelled effective
right of the share on any list other than its bound one is None. -/
theorem c4_linkshare_readall_short_circuit (st : Store) (sa : LinkSharing) (l : ListRow)
    (search : String) (page perPage : Int) (row : ListRow)
    (h : GetListSimpleByID st sa.ListID = Except.ok row) :
    ListRow.ReadAll st l (Auth.share sa) search page perPage
        = Except.ok (addListDetails st [row], 0, 0)
    ∧ row.ID = sa.ListID
    ∧ (∀ st2 : Store, st2.lists = st.lists → st2.users = st.users →
        ListRow.ReadAll st2 l (Auth.share sa) search page perPage
          = ListRow.ReadAll st l (Auth.share sa) search page perPage)
    ∧ (∀ l2 : ListRow, l2.ID ≠ sa.ListID → linkShareEffectiveRight sa l2 = SpecRight.none) := by
  refine ⟨?_, ?_, ?_, ?_⟩
  · simp only [ListRow.ReadAll, h]
  · unfold GetListSimpleByID at h
    by_cases hlt : sa.ListID < 1
    · rw [if_pos hlt] at h
      exact absurd h (by simp)
    · rw [if_neg hlt] at h
      cases hfind : st.lists.find? fun r2 => r2.ID == sa.ListID with
      | none => rw [hfind] at h; exact absurd h (by simp)
      | some r2 =>
        rw [hfind] at h
        have hr2 : r2 = row := by injection h
        have hp := List.find?_some hfind
        rw [hr2] at hp
        exact beq_iff_eq.mp hp
  · intro st2 h1 h2
    unfold ListRow.ReadAll GetListSimpleByID addListDetails
    rw [h1, h2]
  · intro l2 hne
    simp [linkShareEffectiveRight, hne]

/-- Helper for C5: in a table whose only row with the given id is row, the
archived-query hit is row exactly when row satisfies the extra condition. -/
theorem find_cond_unique (rows : List ListRow) (row : ListRow) (q : ListRow → Bool)
    (hmem : row ∈ rows) (huniq : ∀ r2 ∈ rows, r2.ID = row.ID → r2 = row) :
    (rows.find? fun r2 => r2.ID == row.ID && q r2)
      = if q row then Option.some row else Option.none := by
  induction rows with
  | nil => cases hmem
  | cons a as ih =>
    by_cases ha : a.ID = row.ID
    · have haeq : a = row := huniq a (List.mem_cons_self a as) ha
      rw [haeq]
      by_cases hq : q row = true
      · rw [List.find?_cons_of_pos _ (by simp [hq]), if_pos hq]
      · have hqf : q row = false := by simpa using hq
        rw [List.find?_cons_of_neg _ (by simp [hqf]), if_neg (by simp [hqf])]
        rw [List.find?_eq_none]
        intro x hx hpx
        have hxid : x.ID = row.ID := by
          have := (Bool.and_eq_true _ _).mp hpx
          exact beq_iff_eq.mp this.1
        have hxr : x = row := huniq x (List.mem_cons_of_mem a hx) hxid
        rw [hxr] at hpx
        have := (Bool.and_eq_true _ _).mp hpx
        rw [hqf] at this
        exact Bool.false_ne_true this.2
    · rw [List.find?_cons_of_neg _ (by simp [ha])]
      have hmem2 : row ∈ as := by
        rcases List.mem_cons.mp hmem with heq | hin
        · exact absurd (congrArg ListRow.ID heq.symm) ha
        · exact hin
      exact ih hmem2 (fun r2 h2 h3 => huniq r2 (List.mem_cons_of_mem a h2) h3)

/-- C5: CheckIsArchived on a list object with ID 0 consults only the parent
namespace's archived flag; on an existing list it reports the list-archived
error whenever the list itself is archived (taking precedence over the
namespace), the namespace-archived error when only the namespace is archived,
and nothing when neither is archived. -/
theorem c5_check_is_archived_cases (st : Store) (l : ListRow) :
    (l.ID = 0 →
      ListRow.CheckIsArchived st l = namespaceCheckIsArchivedByID st l.NamespaceID)
    ∧ (∀ row : ListRow, l.ID ≠ 0 → row ∈ st.lists → row.ID = l.ID →
        (∀ r2 ∈ st.lists, r2.ID = l.ID → r2 = row) →
        ((row.IsArchived = true →
            ListRow.CheckIsArchived st l = Option.some (ArchErr.listIsArchived l.ID))
         ∧ (∀ ns : NamespaceRow,
              (st.namespaces.find? fun n2 => n2.ID == row.NamespaceID) = Option.some ns →
              ns.ID ≠ 0 → row.IsArchived = false → ns.IsArchived = true →
              ListRow.CheckIsArchived st l = Option.some (ArchErr.namespaceIsArchived ns.ID))
         ∧ (row.IsArchived = false →
            (∀ ns : NamespaceRow,
              (st.namespaces.find? fun n2 => n2.ID == row.NamespaceID) = Option.some ns →
              ns.IsArchived = false) →
            ListRow.CheckIsArchived st l = Option.none))) := by
  constructor
  · intro h0
    simp [ListRow.CheckIsArchived, h0]
  · intro row hne hmem hrid huniq
    have hq : ∀ q : ListRow → Bool,
        (st.lists.find? fun r2 => r2.ID == l.ID && q r2)
          = if q row then Option.some row else Option.none := by
      intro q
      have huniq2 : ∀ r2 ∈ st.lists, r2.ID = row.ID → r2 = row :=
        fun r2 h2 h3 => huniq r2 h2 (h3.trans hrid)
      simp only [← hrid]
      exact find_cond_unique st.lists row q hmem huniq2
    have hrow0 : (row.ID != 0) = true := by
      rw [hrid]
      simpa using hne
    refine ⟨?_, ?_, ?_⟩
    · intro harch
      unfold ListRow.CheckIsArchived
      rw [if_neg (by simp [hne])]
      rw [hq (fun r2 => r2.IsArchived ||
        ((st.namespaces.find? fun n2 => n2.ID == r2.NamespaceID).elim false fun n2 =>
          n2.IsArchived))]
      simp [harch, hrow0]
    · intro ns hfind hns0 hnarch harch
      unfold ListRow.CheckIsArchived
      rw [if_neg (by simp [hne])]
      rw [hq (fun r2 => r2.IsArchived ||
        ((st.namespaces.find? fun n2 => n2.ID == r2.NamespaceID).elim false fun n2 =>
          n2.IsArchived))]
      rw [hnarch]
      simp only [hfind, Option.elim_some, Bool.false_or]
      rw [harch]
      simp [hnarch, hfind, hns0, harch]
    · intro hnarch hno
      unfold ListRow.CheckIsArchived
      rw [if_neg (by simp [hne])]
      rw [hq (fun r2 => r2.IsArchived ||
        ((st.namespaces.find? fun n2 => n2.ID == r2.NamespaceID).elim false fun n2 =>
          n2.IsArchived))]
      rw [hnarch]
      cases hfind : st.namespaces.find? fun n2 => n2.ID == row.NamespaceID with
      | none => simp [hfind]
      | some ns =>
        have := hno ns hfind
        simp [hfind, this]

/-- C5 witness: the three outcomes at the concrete storeArch. -/
theorem c5_check_is_archived_witness :
    ListRow.CheckIsArchived storeArch archListFour = Option.some (ArchErr.listIsArchived 4)
    ∧ ListRow.CheckIsArchived storeArch archListFive
        = Option.some (ArchErr.namespaceIsArchived 12)
    ∧ ListRow.CheckIsArchived storeArch archListThree = Option.none := by
  refine ⟨?_, ?_, ?_⟩
  · exact ((c5_check_is_archived_cases storeArch archListFour).2 archListFour (by decide)
      (by decide) rfl (by decide)).1 rfl
  · exact ((c5_check_is_archived_cases storeArch archListFive).2 archListFive (by decide)
      (by decide) rfl (by decide)).2.1 { ID := 12, OwnerID := 1, IsArchived := true }
      (by decide) (by decide) rfl rfl
  · refine ((c5_check_is_archived_cases storeArch archListThree).2 archListThree (by decide)
      (by decide) rfl (by decide)).2.2 rfl ?_
    intro ns h
    have h2 : Option.some { ID := 11, OwnerID := 1, IsArchived := false : NamespaceRow }
        = Option.some ns := h
    injection h2 with h3
    rw [← h3]

/-- updateDone leaves the incoming task's priority unchanged. -/
theorem updateDone_snd_Priority (o t : ListTask) (now : Int) :
    (updateDone o t now).2.Priority = t.Priority := by
  dsimp only [updateDone]
  split <;> rfl

/-- updateDone leaves the incoming task's description unchanged. -/
theorem updateDone_snd_Description (o t : ListTask) (now : Int) :
    (updateDone o t now).2.Description = t.Description := by
  dsimp only [updateDone]
  split <;> rfl

/-- updateDone leaves the incoming task's due date unchanged. -/
theorem updateDone_snd_DueDateUnix (o t : ListTask) (now : Int) :
    (updateDone o t now).2.DueDateUnix = t.DueDateUnix := by
  dsimp only [updateDone]
  split <;> rfl

/-- updateDone leaves the incoming task's reminders unchanged. -/
theorem updateDone_snd_RemindersUnix (o t : ListTask) (now : Int) :
    (updateDone o t now).2.RemindersUnix = t.RemindersUnix := by
  dsimp only [updateDone]
  split <;> rfl

/-- updateDone leaves the incoming task's repeat interval unchanged. -/
theorem updateDone_snd_RepeatAfter (o t : ListTask) (now : Int) :
    (updateDone o t now).2.RepeatAfter = t.RepeatAfter := by
  dsimp only [updateDone]
  split <;> rfl

/-- updateDone leaves the incoming task's parent task id unchanged. -/
theorem updateDone_snd_ParentTaskID (o t : ListTask) (now : Int) :
    (updateDone o t now).2.ParentTaskID = t.ParentTaskID := by
  dsimp only [updateDone]
  split <;> rfl

/-- updateDone leaves the incoming task's start date unchanged. -/
theorem updateDone_snd_StartDateUnix (o t : ListTask) (now : Int) :
    (updateDone o t now).2.StartDateUnix = t.StartDateUnix := by
  dsimp only [updateDone]
  split <;> rfl

/-- updateDone leaves the incoming task's end date unchanged. -/
theorem updateDone_snd_EndDateUnix (o t : ListTask) (now : Int) :
    (updateDone o t now).2.EndDateUnix = t.EndDateUnix := by
  dsimp only [updateDone]
  split <;> rfl

/-- updateDone leaves the incoming task's color unchanged. -/
theorem updateDone_snd_HexColor (o t : ListTask) (now : Int) :
    (updateDone o t now).2.HexColor = t.HexColor := by
  dsimp only [updateDone]
  split <;> rfl

/-- updateDone never turns an undone incoming task into a done one. -/
theorem updateDone_snd_Done_of_false (o t : ListTask) (now : Int) (h : t.Done = false) :
    (updateDone o t now).2.Done = false := by
  dsimp only [updateDone]
  split
  · rfl
  · exact h

/-- C9: in the embedded task Update, every zero-valued field of the incoming
task forces the corresponding stored field to zero, whatever the previously
stored values were: the mergo merge ignores zero-valued incoming fields and
the explicit reset block then clears the merged field. -/
theorem c9_zero_value_fields_reset (tasks : List ListTask) (t : ListTask) (now : Int)
    (stored : ListTask) (h : ListTask.Update tasks t now = Except.ok stored) :
    (t.Done = false → stored.Done = false)
    ∧ (t.Priority = 0 → stored.Priority = 0)
    ∧ (t.Description = "" → stored.Description = "")
    ∧ (t.DueDateUnix = 0 → stored.DueDateUnix = 0)
    ∧ (t.RemindersUnix = [] → stored.RemindersUnix = [])
    ∧ (t.RepeatAfter = 0 → stored.RepeatAfter = 0)
    ∧ (t.ParentTaskID = 0 → stored.ParentTaskID = 0)
    ∧ (t.StartDateUnix = 0 → stored.StartDateUnix = 0)
    ∧ (t.EndDateUnix = 0 → stored.EndDateUnix = 0)
    ∧ (t.HexColor = "" → stored.HexColor = "") := by
  unfold ListTask.Update at h
  split at h
  · exact absurd h (by simp)
  · split at h
    · exact absurd h (by simp)
    · injection h with h2
      subst h2
      refine ⟨?_, ?_, ?_, ?_, ?_, ?_, ?_, ?_, ?_, ?_⟩ <;> intro hz
      · simp [applyUpdateCols, applyZeroResets, updateDone_snd_Done_of_false, hz]
      · simp [applyUpdateCols, applyZeroResets, updateDone_snd_Priority, hz]
      · simp [applyUpdateCols, applyZeroResets, updateDone_snd_Description, hz]
      · simp [applyUpdateCols, applyZeroResets, updateDone_snd_DueDateUnix, hz]
      · simp [applyUpdateCols, applyZeroResets, updateDone_snd_RemindersUnix, hz]
      · simp [applyUpdateCols, applyZeroResets, updateDone_snd_RepeatAfter, hz]
      · simp [applyUpdateCols, applyZeroResets, updateDone_snd_ParentTaskID, hz]
      · simp [applyUpdateCols, applyZeroResets, updateDone_snd_StartDateUnix, hz]
      · simp [applyUpdateCols, applyZeroResets, updateDone_snd_EndDateUnix, hz]
      · simp [applyUpdateCols, applyZeroResets, updateDone_snd_HexColor, hz]

/-- C9 witness: updating the fully populated task oldC9 with the all-zero
incoming task tC9 stores storedC9, whose updatable fields are all reset. -/
theorem c9_zero_value_witness :
    ListTask.Update [oldC9] tC9 777 = Except.ok storedC9
    ∧ storedC9.Done = false ∧ storedC9.Priority = 0 ∧ storedC9.Description = ""
    ∧ storedC9.DueDateUnix = 0 ∧ storedC9.RemindersUnix = [] ∧ storedC9.RepeatAfter = 0
    ∧ storedC9.ParentTaskID = 0 ∧ storedC9.StartDateUnix = 0 ∧ storedC9.EndDateUnix = 0
    ∧ storedC9.HexColor = "" := by
  have hup : ListTask.Update [oldC9] tC9 777 = Except.ok storedC9 := rfl
  have h := c9_zero_value_fields_reset [oldC9] tC9 777 storedC9 hup
  exact ⟨hup, h.1 rfl, h.2.1 rfl, h.2.2.1 rfl, h.2.2.2.1 rfl, h.2.2.2.2.1 rfl,
    h.2.2.2.2.2.1 rfl, h.2.2.2.2.2.2.1 rfl, h.2.2.2.2.2.2.2.1 rfl,
    h.2.2.2.2.2.2.2.2.1 rfl, h.2.2.2.2.2.2.2.2.2 rfl⟩

/-- C4 witness: in storeShare, ReadAll with the link share bound to list 3
returns exactly that list, and the share's effective right on list 4 is None. -/
theorem c4_linkshare_witness :
    ListRow.ReadAll storeShare listRowReceiver (Auth.share shareThree) "" 0 0
      = Except.ok (addListDetails storeShare [listRowThree], 0, 0)
    ∧ linkShareEffectiveRight shareThree listRowOther = SpecRight.none := by
  have h := c4_linkshare_readall_short_circuit storeShare shareThree listRowReceiver
    "" 0 0 listRowThree rfl
  exact ⟨h.1, h.2.2.2 listRowOther (by decide)⟩
